import Mathlib

/-!
Verification of the `simple-vector.ts` 2D vector library.

The development shallowly embeds `src/Vector.ts`, `src/utils.ts` and
`src/errors.ts`.  JavaScript numbers are modelled by `JsNum α`: either `NaN`,
one of the two infinities, or a finite value drawn from a linear ordered field
(`ℚ` for the fully executable part of the model, `ℝ` for the methods built on
`Math.sqrt` and the trigonometric functions).  Negative zero is identified
with zero and finite rounding is idealised away; none of the properties
checked here depend on either.

Mutating methods are embedded as functions returning the receiver's
components after the call together with the exception thrown, if any, so that
partial mutation before a throw would be observable.
-/

/-- Error taxonomy of the library (spec section 7): the `DivisionByZeroError`
class, the invalid-number signals (`InvalidNumberError` and the `TypeError`
thrown for a missing or non-finite required number), `RangeError`, and the
`TypeError` raised when a clamp-style method receives bounds of two different
kinds. -/
inductive VErr where
  | divisionByZero
  | invalidNumber
  | rangeError
  | typeMismatch
deriving DecidableEq, Repr

/-- A JavaScript number: `NaN`, an infinity, or a finite value of `α`. -/
inductive JsNum (α : Type) where
  | nan
  | posInf
  | negInf
  | num (v : α)
deriving DecidableEq, Repr

namespace JsNum

variable {α : Type} [LinearOrderedField α]

/-- Embeds `Number.isFinite`. -/
def isFinite : JsNum α → Bool
  | num _ => true
  | _ => false

/-- JavaScript strict equality `===` on numbers: `NaN` equals nothing,
itself included. -/
def seq : JsNum α → JsNum α → Bool
  | posInf, posInf => true
  | negInf, negInf => true
  | num a, num b => decide (a = b)
  | _, _ => false

/-- JavaScript `<` on numbers: any comparison involving `NaN` is false. -/
def lt : JsNum α → JsNum α → Bool
  | nan, _ => false
  | _, nan => false
  | negInf, negInf => false
  | negInf, _ => true
  | _, negInf => false
  | posInf, _ => false
  | num _, posInf => true
  | num a, num b => decide (a < b)

/-- JavaScript unary negation. -/
def neg : JsNum α → JsNum α
  | nan => nan
  | posInf => negInf
  | negInf => posInf
  | num a => num (-a)

/-- JavaScript `+` on numbers (opposite infinities give `NaN`). -/
def add : JsNum α → JsNum α → JsNum α
  | nan, _ => nan
  | _, nan => nan
  | posInf, negInf => nan
  | negInf, posInf => nan
  | posInf, _ => posInf
  | negInf, _ => negInf
  | num _, posInf => posInf
  | num _, negInf => negInf
  | num a, num b => num (a + b)

/-- JavaScript `-` on numbers. -/
def sub (a b : JsNum α) : JsNum α := a.add b.neg

/-- JavaScript `*` on numbers (an infinity times zero gives `NaN`). -/
def mul : JsNum α → JsNum α → JsNum α
  | nan, _ => nan
  | _, nan => nan
  | posInf, posInf => posInf
  | posInf, negInf => negInf
  | negInf, posInf => negInf
  | negInf, negInf => posInf
  | posInf, num b => if b = 0 then nan else if 0 < b then posInf else negInf
  | negInf, num b => if b = 0 then nan else if 0 < b then negInf else posInf
  | num a, posInf => if a = 0 then nan else if 0 < a then posInf else negInf
  | num a, negInf => if a = 0 then nan else if 0 < a then negInf else posInf
  | num a, num b => num (a * b)

/-- JavaScript `/` on numbers (`0/0` gives `NaN`, a non-zero finite value over
zero gives a signed infinity; the sign of zero is not modelled). -/
def div : JsNum α → JsNum α → JsNum α
  | nan, _ => nan
  | _, nan => nan
  | posInf, posInf => nan
  | posInf, negInf => nan
  | negInf, posInf => nan
  | negInf, negInf => nan
  | posInf, num b => if 0 ≤ b then posInf else negInf
  | negInf, num b => if 0 ≤ b then negInf else posInf
  | num _, posInf => num 0
  | num _, negInf => num 0
  | num a, num b =>
      if b = 0 then (if a = 0 then nan else if 0 < a then posInf else negInf)
      else num (a / b)

/-- Embeds `Math.min` (`NaN` absorbs). -/
def jmin : JsNum α → JsNum α → JsNum α
  | nan, _ => nan
  | _, nan => nan
  | negInf, _ => negInf
  | _, negInf => negInf
  | posInf, b => b
  | a, posInf => a
  | num a, num b => num (min a b)

/-- Embeds `Math.max` (`NaN` absorbs). -/
def jmax : JsNum α → JsNum α → JsNum α
  | nan, _ => nan
  | _, nan => nan
  | posInf, _ => posInf
  | _, posInf => posInf
  | negInf, b => b
  | a, negInf => a
  | num a, num b => num (max a b)

/-- Embeds `validateNumber` from `src/utils.ts`: returns the value when it is
a finite number and throws `InvalidNumberError` otherwise. -/
def validateNumber : JsNum α → Except VErr α
  | num v => .ok v
  | _ => .error .invalidNumber

end JsNum

/-- Embeds `getClampedValue` from `src/utils.ts`: validates the three inputs
in order and returns `Math.min(Math.max(current, minBound), maxBound)`. -/
def getClampedValue {α : Type} [LinearOrderedField α]
    (current minBound maxBound : JsNum α) : Except VErr α :=
  match current.validateNumber with
  | .error e => .error e
  | .ok c =>
    match minBound.validateNumber with
    | .error e => .error e
    | .ok lo =>
      match maxBound.validateNumber with
      | .error e => .error e
      | .ok hi => .ok (min (max c lo) hi)

/-- The two mutable components of a `Vector` instance. -/
structure JVec (α : Type) where
  x : JsNum α
  y : JsNum α
deriving DecidableEq, Repr

/-- Outcome of a call to a mutating method: the receiver's components after
the call, and the exception thrown if the call did not return normally. -/
structure MCall (α : Type) where
  state : JVec α
  thrown : Option VErr
deriving DecidableEq, Repr

/-- Sequences two mutating calls the way JavaScript exception propagation
does: the second runs only when the first returned normally, and the receiver
keeps the state it had when an exception was thrown. -/
def MCall.andThen {α : Type} (r : MCall α) (f : JVec α → MCall α) : MCall α :=
  match r.thrown with
  | some e => ⟨r.state, some e⟩
  | none => f r.state

namespace JVec

variable {α : Type} [LinearOrderedField α]

/-- Embeds `new Vector(x, y)`: both arguments are validated finite (the
thrown `TypeError` belongs to the invalid-number signal kind). -/
def make (x y : JsNum α) : Except VErr (JVec α) :=
  if x.isFinite then
    (if y.isFinite then .ok ⟨x, y⟩ else .error .invalidNumber)
  else .error .invalidNumber

/-- Embeds `Vector.prototype.addScalar`. -/
def addScalar (v : JVec α) (s : JsNum α) : JVec α := ⟨v.x.add s, v.y.add s⟩

/-- Embeds `Vector.prototype.addScalarX`. -/
def addScalarX (v : JVec α) (s : JsNum α) : JVec α := ⟨v.x.add s, v.y⟩

/-- Embeds `Vector.prototype.addScalarY`. -/
def addScalarY (v : JVec α) (s : JsNum α) : JVec α := ⟨v.x, v.y.add s⟩

/-- Embeds `Vector.prototype.subtractScalar`. -/
def subtractScalar (v : JVec α) (s : JsNum α) : JVec α := ⟨v.x.sub s, v.y.sub s⟩

/-- Embeds `Vector.prototype.subtractScalarX`. -/
def subtractScalarX (v : JVec α) (s : JsNum α) : JVec α := ⟨v.x.sub s, v.y⟩

/-- Embeds `Vector.prototype.subtractScalarY`. -/
def subtractScalarY (v : JVec α) (s : JsNum α) : JVec α := ⟨v.x, v.y.sub s⟩

/-- Embeds `Vector.prototype.multiplyScalar`. -/
def multiplyScalar (v : JVec α) (s : JsNum α) : JVec α := ⟨v.x.mul s, v.y.mul s⟩

/-- Embeds `Vector.prototype.multiplyScalarX`. -/
def multiplyScalarX (v : JVec α) (s : JsNum α) : JVec α := ⟨v.x.mul s, v.y⟩

/-- Embeds `Vector.prototype.multiplyScalarY`. -/
def multiplyScalarY (v : JVec α) (s : JsNum α) : JVec α := ⟨v.x, v.y.mul s⟩

/-- Embeds `Vector.prototype.divideX`: throws `DivisionByZeroError` when
`vec.x === 0`, before mutating the receiver. -/
def divideX (v w : JVec α) : MCall α :=
  if w.x.seq (.num 0) then ⟨v, some .divisionByZero⟩
  else ⟨⟨v.x.div w.x, v.y⟩, none⟩

/-- Embeds `Vector.prototype.divideY`. -/
def divideY (v w : JVec α) : MCall α :=
  if w.y.seq (.num 0) then ⟨v, some .divisionByZero⟩
  else ⟨⟨v.x, v.y.div w.y⟩, none⟩

/-- Embeds `Vector.prototype.divide`: throws when either axis of the divisor
is `0`, before mutating either component. -/
def divide (v w : JVec α) : MCall α :=
  if w.x.seq (.num 0) || w.y.seq (.num 0) then ⟨v, some .divisionByZero⟩
  else ⟨⟨v.x.div w.x, v.y.div w.y⟩, none⟩

/-- Embeds `Vector.prototype.divideScalar`. -/
def divideScalar (v : JVec α) (s : JsNum α) : MCall α :=
  if s.seq (.num 0) then ⟨v, some .divisionByZero⟩
  else ⟨⟨v.x.div s, v.y.div s⟩, none⟩

/-- Embeds `Vector.prototype.divideScalarX`. -/
def divideScalarX (v : JVec α) (s : JsNum α) : MCall α :=
  if s.seq (.num 0) then ⟨v, some .divisionByZero⟩
  else ⟨⟨v.x.div s, v.y⟩, none⟩

/-- Embeds `Vector.prototype.divideScalarY`. -/
def divideScalarY (v : JVec α) (s : JsNum α) : MCall α :=
  if s.seq (.num 0) then ⟨v, some .divisionByZero⟩
  else ⟨⟨v.x, v.y.div s⟩, none⟩

end JVec

/-- Kind of bound accepted by the overloaded clamp signatures: a plain number
or a vector, whose relevant axis (or magnitude, for `clampMag`) is read off. -/
inductive Bound (α : Type) where
  | bnum (n : JsNum α)
  | bvec (v : JVec α)
deriving DecidableEq, Repr

/-- Embeds the `typeof max !== typeof min` check of the clamp methods: the
two bounds must both be numbers or both be vectors. -/
def Bound.sameKind {α : Type} : Bound α → Bound α → Bool
  | .bnum _, .bnum _ => true
  | .bvec _, .bvec _ => true
  | _, _ => false

/-- Embeds `isVector(bound) ? bound.x : validateNumber(bound)`: the number
read off a clamp bound for the X axis (a vector bound's axis is read without
validation, a numeric bound is validated finite). -/
def Bound.xnum {α : Type} [LinearOrderedField α] :
    Bound α → Except VErr (JsNum α)
  | .bvec w => .ok w.x
  | .bnum n =>
    match n.validateNumber with
    | .error e => .error e
    | .ok q => .ok (.num q)

namespace JVec

variable {α : Type} [LinearOrderedField α]

/-- Embeds `Vector.prototype.clampX`: with a single bound the value is used
as the max bound only; with two bounds of the same kind they are sorted into
`(min, max)` before clamping through `getClampedValue`. -/
def clampX (v : JVec α) (mx : Bound α) (mn : Option (Bound α)) : MCall α :=
  match mx.xnum with
  | .error e => ⟨v, some e⟩
  | .ok a =>
    match mn with
    | none => ⟨⟨v.x.jmin a, v.y⟩, none⟩
    | some mnb =>
      if mx.sameKind mnb then
        match mnb.xnum with
        | .error e => ⟨v, some e⟩
        | .ok b =>
          match getClampedValue v.x (a.jmin b) (a.jmax b) with
          | .error e => ⟨v, some e⟩
          | .ok c => ⟨⟨.num c, v.y⟩, none⟩
      else ⟨v, some .typeMismatch⟩

/-- Embeds `Vector.prototype.mixX`: range check on the factor, then
`this.x = (1 - mixFactor) * this.x + mixFactor * vec.x`. -/
def mixX (v w : JVec α) (f : JsNum α) : MCall α :=
  if f.lt (.num 0) || (JsNum.num 1).lt f then ⟨v, some .rangeError⟩
  else ⟨⟨(((JsNum.num 1).sub f).mul v.x).add (f.mul w.x), v.y⟩, none⟩

/-- Embeds `Vector.prototype.mixY`. -/
def mixY (v w : JVec α) (f : JsNum α) : MCall α :=
  if f.lt (.num 0) || (JsNum.num 1).lt f then ⟨v, some .rangeError⟩
  else ⟨⟨v.x, (((JsNum.num 1).sub f).mul v.y).add (f.mul w.y)⟩, none⟩

/-- Embeds `Vector.prototype.mix`: its own range check, then `mixX` followed
by `mixY`. -/
def mix (v w : JVec α) (f : JsNum α) : MCall α :=
  if f.lt (.num 0) || (JsNum.num 1).lt f then ⟨v, some .rangeError⟩
  else (mixX v w f).andThen fun u => mixY u w f

/-- Embeds `Vector.prototype.isEqualTo`: exact component equality. -/
def isEqualTo (v w : JVec α) : Bool := v.x.seq w.x && v.y.seq w.y

end JVec

/-- Embeds the `VectorLike` interface: a plain object with `x` and `y`
number properties. -/
structure VectorLike (α : Type) where
  x : JsNum α
  y : JsNum α
deriving DecidableEq, Repr

/-- Embeds `Vector.prototype.toObject`. -/
def JVec.toObject {α : Type} (v : JVec α) : VectorLike α := ⟨v.x, v.y⟩

/-- Embeds `Vector.fromObject`: validates that both properties are finite
numbers and then calls the constructor. -/
def JVec.fromObject {α : Type} [LinearOrderedField α]
    (o : VectorLike α) : Except VErr (JVec α) :=
  if o.x.isFinite then
    (if o.y.isFinite then JVec.make o.x o.y else .error .invalidNumber)
  else .error .invalidNumber

/-- Embeds `Math.sqrt` on the real-valued JavaScript number model (the
square root of a negative number is `NaN`). -/
noncomputable def JsNum.jsqrt : JsNum ℝ → JsNum ℝ
  | .nan => .nan
  | .posInf => .posInf
  | .negInf => .nan
  | .num v => if v < 0 then .nan else .num (Real.sqrt v)

/-- Embeds `Vector.prototype.magSq`: `this.x * this.x + this.y * this.y`. -/
def JVec.magSq {α : Type} [LinearOrderedField α] (v : JVec α) : JsNum α :=
  (v.x.mul v.x).add (v.y.mul v.y)

/-- Embeds `Vector.prototype.mag`: `Math.sqrt(this.magSq())`. -/
noncomputable def JVec.mag (v : JVec ℝ) : JsNum ℝ := v.magSq.jsqrt

/-- Embeds `Vector.prototype.normalize`:
`this.divideScalar(this.magnitude())`. -/
noncomputable def JVec.normalize (v : JVec ℝ) : MCall ℝ :=
  v.divideScalar v.mag

/-- Embeds `Vector.prototype.resize`: throws a `TypeError` when the
magnitude argument is `undefined` or `null` (modelled as `none`), then
normalizes and scales by the argument; no finiteness validation is
performed on the argument. -/
noncomputable def JVec.resize (v : JVec ℝ) (m : Option (JsNum ℝ)) : MCall ℝ :=
  match m with
  | none => ⟨v, some .invalidNumber⟩
  | some k => v.normalize.andThen fun u => ⟨u.multiplyScalar k, none⟩

/-- Embeds `isVector(bound) ? bound.mag() : validateNumber(bound)` as used
by `clampMag` to read a magnitude bound. -/
noncomputable def Bound.magnum : Bound ℝ → Except VErr (JsNum ℝ)
  | .bvec w => .ok w.mag
  | .bnum n =>
    match n.validateNumber with
    | .error e => .error e
    | .ok q => .ok (.num q)

/-- Embeds `Vector.prototype.clampMag`: reads the bounds (vector magnitudes
or validated numbers), rejects a negative bound with a `RangeError`, treats
a single bound as a max bound only, sorts two bounds, clamps the current
magnitude through `getClampedValue` and resizes exactly when the clamped
magnitude differs from the current one. -/
noncomputable def JVec.clampMag (v : JVec ℝ) (mx : Bound ℝ)
    (mn : Option (Bound ℝ)) : MCall ℝ :=
  let currentMag := v.mag
  match mx.magnum with
  | .error e => ⟨v, some e⟩
  | .ok a =>
    if a.lt (.num 0) then ⟨v, some .rangeError⟩
    else
      match mn with
      | none =>
        if JsNum.lt a currentMag then v.resize (some a) else ⟨v, none⟩
      | some mnb =>
        if mx.sameKind mnb then
          match mnb.magnum with
          | .error e => ⟨v, some e⟩
          | .ok b =>
            if b.lt (.num 0) then ⟨v, some .rangeError⟩
            else
              match getClampedValue currentMag (a.jmin b) (a.jmax b) with
              | .error e => ⟨v, some e⟩
              | .ok c =>
                if currentMag.seq (.num c) then ⟨v, none⟩
                else v.resize (some (.num c))
        else ⟨v, some .typeMismatch⟩

/-- A vector of the idealised real-valued model, used for the geometric
methods: floating-point values are idealised as exact reals (so every value
is finite and rounding is exact). -/
structure RVec where
  x : ℝ
  y : ℝ

namespace RVec

/-- Embeds `Vector.prototype.dot`. -/
def dot (v w : RVec) : ℝ := v.x * w.x + v.y * w.y

/-- Embeds `Vector.prototype.cross` (scalar z-component). -/
def cross (v w : RVec) : ℝ := v.x * w.y - v.y * w.x

/-- Embeds `Vector.prototype.magSq`. -/
def magSq (v : RVec) : ℝ := v.x * v.x + v.y * v.y

/-- Embeds `Vector.prototype.mag`. -/
noncomputable def mag (v : RVec) : ℝ := Real.sqrt v.magSq

/-- Embeds `Vector.prototype.isZero`: exact equality of both components
with zero. -/
def isZero (v : RVec) : Prop := v.x = 0 ∧ v.y = 0

noncomputable instance (v : RVec) : Decidable v.isZero :=
  inferInstanceAs (Decidable (v.x = 0 ∧ v.y = 0))

/-- Embeds `Vector.prototype.subtract`. -/
def subtract (v w : RVec) : RVec := ⟨v.x - w.x, v.y - w.y⟩

/-- Embeds `Vector.prototype.multiplyScalar`. -/
def multiplyScalar (v : RVec) (s : ℝ) : RVec := ⟨v.x * s, v.y * s⟩

/-- Embeds `Vector.prototype.clone`. -/
def clone (v : RVec) : RVec := ⟨v.x, v.y⟩

/-- Embeds `Vector.prototype.divideScalar` in the real model. -/
noncomputable def divideScalar (v : RVec) (s : ℝ) : RVec × Option VErr :=
  if s = 0 then (v, some .divisionByZero) else (⟨v.x / s, v.y / s⟩, none)

/-- Embeds `Vector.prototype.normalize` in the real model. -/
noncomputable def normalize (v : RVec) : RVec × Option VErr :=
  v.divideScalar v.mag

/-- Embeds `Vector.prototype.angleWith`: `0` when either vector is zero,
otherwise `Math.acos` of the normalized dot product with the cosine clamped
into `[-1, 1]` first. -/
noncomputable def angleWith (v w : RVec) : ℝ :=
  if v.isZero ∨ w.isZero then 0
  else Real.arccos
    (max (-1) (min 1 ((v.x * w.x + v.y * w.y) / (v.mag * w.mag))))

/-- Embeds `Vector.prototype.rotateBy`: the counter-clockwise rotation
matrix. -/
noncomputable def rotateBy (v : RVec) (angle : ℝ) : RVec :=
  ⟨v.x * Real.cos angle - v.y * Real.sin angle,
   v.x * Real.sin angle + v.y * Real.cos angle⟩

/-- Embeds `Vector.prototype.rotateTowards`: range check on the max angle,
rotation by the clamped angle, direction chosen by the sign of the cross
product. -/
noncomputable def rotateTowards (v w : RVec) (maxAngle : ℝ) :
    RVec × Option VErr :=
  if maxAngle ≤ 0 then (v, some .rangeError)
  else
    let angle := v.angleWith w
    let delta := min angle maxAngle
    let signedDelta := if v.cross w < 0 then -delta else delta
    (v.rotateBy signedDelta, none)

/-- Embeds `Vector.prototype.reflect`: normalizes a clone of the surface
normal (which can throw for a zero normal), then subtracts the scaled copy
from the receiver.  The result carries both the receiver's state and the
state of the normal argument, on which the code never invokes a mutating
method. -/
noncomputable def reflect (v n : RVec) : (RVec × RVec) × Option VErr :=
  match n.clone.normalize with
  | (copy, none) =>
    ((v.subtract (copy.multiplyScalar (2 * v.dot copy)), n), none)
  | (_, some e) => ((v, n), some e)

end RVec

theorem JsNum.seq_num_zero_iff {α : Type} [LinearOrderedField α] (a : JsNum α) :
    a.seq (num 0) = true ↔ a = num 0 := by
  cases a <;> simp [seq]

/-- C1: for every receiver and every argument, `divide(vec)` throws the
division-by-zero error exactly when `vec.x = 0` or `vec.y = 0`,
`divideScalar(s)` throws exactly when `s = 0` (likewise the single-axis
variants for their relevant divisor), and whenever any of the six division
methods throws, the receiver's components are exactly as they were before the
call. -/
theorem divide_guard_and_preservation (v w : JVec ℚ) (s : JsNum ℚ) :
    ((JVec.divide v w).thrown = some .divisionByZero ↔
      w.x = .num 0 ∨ w.y = .num 0) ∧
    ((JVec.divideX v w).thrown = some .divisionByZero ↔ w.x = .num 0) ∧
    ((JVec.divideY v w).thrown = some .divisionByZero ↔ w.y = .num 0) ∧
    ((JVec.divideScalar v s).thrown = some .divisionByZero ↔ s = .num 0) ∧
    ((JVec.divideScalarX v s).thrown = some .divisionByZero ↔ s = .num 0) ∧
    ((JVec.divideScalarY v s).thrown = some .divisionByZero ↔ s = .num 0) ∧
    ((JVec.divide v w).thrown ≠ none → (JVec.divide v w).state = v) ∧
    ((JVec.divideX v w).thrown ≠ none → (JVec.divideX v w).state = v) ∧
    ((JVec.divideY v w).thrown ≠ none → (JVec.divideY v w).state = v) ∧
    ((JVec.divideScalar v s).thrown ≠ none → (JVec.divideScalar v s).state = v) ∧
    ((JVec.divideScalarX v s).thrown ≠ none → (JVec.divideScalarX v s).state = v) ∧
    ((JVec.divideScalarY v s).thrown ≠ none → (JVec.divideScalarY v s).state = v) := by
  unfold JVec.divide JVec.divideX JVec.divideY JVec.divideScalar
    JVec.divideScalarX JVec.divideScalarY
  by_cases hx : w.x.seq (.num 0) = true <;>
    by_cases hy : w.y.seq (.num 0) = true <;>
    by_cases hs : s.seq (.num 0) = true <;>
    simp_all [JsNum.seq_num_zero_iff]

/-- Witness for C1 at the receiver `(1, 1)`, divisor vector `(0, 2)` and
scalar `0`. -/
theorem divide_guard_and_preservation_witness :
    (JVec.divide ⟨.num (1 : ℚ), .num 1⟩ ⟨.num 0, .num 2⟩).state =
      ⟨.num (1 : ℚ), .num 1⟩ :=
  (divide_guard_and_preservation ⟨.num 1, .num 1⟩ ⟨.num 0, .num 2⟩
    (.num 0)).2.2.2.2.2.2.1 (by decide)

theorem RVec.magSq_nonneg (v : RVec) : 0 ≤ v.magSq :=
  add_nonneg (mul_self_nonneg _) (mul_self_nonneg _)

theorem RVec.magSq_eq_zero_iff (v : RVec) : v.magSq = 0 ↔ v.isZero := by
  unfold RVec.magSq RVec.isZero
  rw [add_eq_zero_iff_of_nonneg (mul_self_nonneg _) (mul_self_nonneg _),
    mul_self_eq_zero, mul_self_eq_zero]

theorem RVec.mag_pos (v : RVec) (h : ¬ v.isZero) : 0 < v.mag := by
  apply Real.sqrt_pos.mpr
  rcases lt_or_eq_of_le (RVec.magSq_nonneg v) with h1 | h1
  · exact h1
  · exact absurd ((RVec.magSq_eq_zero_iff v).mp h1.symm) h

theorem RVec.mag_mul_self (v : RVec) : v.mag * v.mag = v.magSq :=
  Real.mul_self_sqrt (RVec.magSq_nonneg v)

theorem RVec.magSq_rotateBy (v : RVec) (t : ℝ) :
    (v.rotateBy t).magSq = v.magSq := by
  show (v.x * Real.cos t - v.y * Real.sin t) *
        (v.x * Real.cos t - v.y * Real.sin t) +
      (v.x * Real.sin t + v.y * Real.cos t) *
        (v.x * Real.sin t + v.y * Real.cos t) =
      v.x * v.x + v.y * v.y
  linear_combination (v.x * v.x + v.y * v.y) * Real.sin_sq_add_cos_sq t

theorem RVec.mag_rotateBy (v : RVec) (t : ℝ) : (v.rotateBy t).mag = v.mag := by
  unfold RVec.mag
  rw [RVec.magSq_rotateBy]

theorem RVec.not_isZero_rotateBy (v : RVec) (t : ℝ) (h : ¬ v.isZero) :
    ¬ (v.rotateBy t).isZero := by
  intro hz
  apply h
  have h1 : (v.rotateBy t).magSq = 0 := (RVec.magSq_eq_zero_iff _).mpr hz
  rw [RVec.magSq_rotateBy] at h1
  exact (RVec.magSq_eq_zero_iff v).mp h1

theorem RVec.dot_rotateBy (v w : RVec) (t : ℝ) :
    (v.rotateBy t).dot w = Real.cos t * v.dot w + Real.sin t * v.cross w := by
  show (v.x * Real.cos t - v.y * Real.sin t) * w.x +
      (v.x * Real.sin t + v.y * Real.cos t) * w.y = _
  unfold RVec.dot RVec.cross
  ring

theorem RVec.dot_sq_add_cross_sq (v w : RVec) :
    v.dot w * v.dot w + v.cross w * v.cross w = v.magSq * w.magSq := by
  unfold RVec.dot RVec.cross RVec.magSq
  ring

theorem RVec.angleWith_of_not_zero (v w : RVec) (h : ¬ (v.isZero ∨ w.isZero)) :
    v.angleWith w =
      Real.arccos (max (-1) (min 1 (v.dot w / (v.mag * w.mag)))) := by
  rw [RVec.angleWith, if_neg h]
  rfl

theorem RVec.normCos_sq_add_normSin_sq (v w : RVec)
    (hv : ¬ v.isZero) (hw : ¬ w.isZero) :
    (v.dot w / (v.mag * w.mag)) ^ 2 + (v.cross w / (v.mag * w.mag)) ^ 2 = 1 := by
  have hmv := RVec.mag_pos v hv
  have hmw := RVec.mag_pos w hw
  have hmm := RVec.mag_mul_self v
  have hww := RVec.mag_mul_self w
  have key := RVec.dot_sq_add_cross_sq v w
  have hne : v.mag * w.mag ≠ 0 := ne_of_gt (mul_pos hmv hmw)
  field_simp
  linear_combination key - w.magSq * hmm - v.mag ^ 2 * hww

theorem JVec.mag_zero : JVec.mag ⟨.num 0, .num 0⟩ = .num 0 := by
  simp [JVec.mag, JVec.magSq, JsNum.mul, JsNum.add, JsNum.jsqrt]

/-- C2 (amended): `resize` signals the invalid-number `TypeError` exactly
when the magnitude argument is missing (`undefined` or `null`); a `NaN` or
infinite argument passes without validation (only a division-by-zero error
from normalizing a zero receiver, or no error at all, can occur then). -/
theorem resize_error_iff_missing (v : JVec ℝ) (m : Option (JsNum ℝ)) :
    (JVec.resize v m).thrown = some .invalidNumber ↔ m = none := by
  cases m with
  | none => simp [JVec.resize]
  | some k =>
    by_cases h : (JVec.mag v).seq (.num 0) = true <;>
      simp [JVec.resize, JVec.normalize, JVec.divideScalar, MCall.andThen, h]

/-- Witness for C2 at the vector `(1, 0)` with a missing argument. -/
theorem resize_error_iff_missing_witness :
    (JVec.resize ⟨.num 1, .num 0⟩ none).thrown = some .invalidNumber :=
  (resize_error_iff_missing ⟨.num 1, .num 0⟩ none).mpr rfl

/-- Counterexample for C2 as stated: `resize(NaN)` on the vector `(1, 0)`
raises no error at all (the claim requires an invalid-number error); the
components silently become `NaN`. -/
theorem resize_nan_counterexample :
    JVec.resize ⟨.num 1, .num 0⟩ (some .nan) = ⟨⟨.nan, .nan⟩, none⟩ := by
  have hmag : JVec.mag ⟨.num (1 : ℝ), .num 0⟩ = .num 1 := by
    norm_num [JVec.mag, JVec.magSq, JsNum.mul, JsNum.add, JsNum.jsqrt,
      Real.sqrt_one]
  norm_num [JVec.resize, JVec.normalize, JVec.divideScalar, MCall.andThen,
    hmag, JsNum.seq, JsNum.div, JVec.multiplyScalar, JsNum.mul]

/-- C10 (amended): on the zero receiver, `clampMag` with two finite numeric
bounds whose minimum is strictly positive throws the division-by-zero error
(propagated from `resize` normalizing the zero magnitude), not a range
error, and leaves the receiver at `(0, 0)`; with a single non-negative
finite numeric (max-only) bound it never throws and leaves the receiver
unchanged. -/
theorem clampMag_zero_receiver (a b : ℝ) :
    (0 < min a b →
      JVec.clampMag ⟨.num 0, .num 0⟩ (.bnum (.num a))
        (some (.bnum (.num b))) =
        ⟨⟨.num 0, .num 0⟩, some .divisionByZero⟩) ∧
    (0 ≤ a →
      JVec.clampMag ⟨.num 0, .num 0⟩ (.bnum (.num a)) none =
        ⟨⟨.num 0, .num 0⟩, none⟩) := by
  constructor
  · intro h
    obtain ⟨ha, hb⟩ := lt_min_iff.mp h
    have h1 : ¬ a < 0 := by linarith
    have h2 : ¬ b < 0 := by linarith
    have h3 : max 0 (min a b) = min a b := max_eq_right h.le
    have h4 : min (min a b) (max a b) = min a b := min_eq_left min_le_max
    have h5 : (0 : ℝ) ≠ min a b := ne_of_lt h
    simp [JVec.clampMag, Bound.magnum, JsNum.validateNumber, JVec.mag_zero,
      JsNum.lt, h1, h2, Bound.sameKind, JsNum.jmin, JsNum.jmax,
      getClampedValue, JsNum.seq, h3, h4, h5, JVec.resize, JVec.normalize,
      JVec.divideScalar, MCall.andThen]
  · intro h
    have h1 : ¬ a < 0 := not_lt.mpr h
    simp [JVec.clampMag, Bound.magnum, JsNum.validateNumber, JVec.mag_zero,
      JsNum.lt, h1]

/-- Witness for C10 at the zero receiver with bounds `1` and `2`, and with
the single bound `1`. -/
theorem clampMag_zero_receiver_witness :
    JVec.clampMag ⟨.num 0, .num 0⟩ (.bnum (.num 1)) (some (.bnum (.num 2))) =
      ⟨⟨.num 0, .num 0⟩, some .divisionByZero⟩ ∧
    JVec.clampMag ⟨.num 0, .num 0⟩ (.bnum (.num 1)) none =
      ⟨⟨.num 0, .num 0⟩, none⟩ :=
  ⟨(clampMag_zero_receiver 1 2).1 (by norm_num),
   (clampMag_zero_receiver 1 2).2 (by norm_num)⟩

/-- Counterexample for C10 as stated: a single negative max bound makes
`clampMag` throw a `RangeError` even on the zero receiver, so the
single-bound case is not literally "never throws". -/
theorem clampMag_zero_negative_counterexample :
    JVec.clampMag ⟨.num 0, .num 0⟩ (.bnum (.num (-1))) none =
      ⟨⟨.num 0, .num 0⟩, some .rangeError⟩ := by
  norm_num [JVec.clampMag, Bound.magnum, JsNum.validateNumber, JsNum.lt]

/-- C3: for every vector and all finite numeric bounds `a` and `b`,
`clampX(a, b)` and `clampX(b, a)` produce the identical result, the Y axis is
left unchanged, and when the receiver's X axis is a finite number the call
returns normally with the X axis set to the value clamped into
`[min(a,b), max(a,b)]` (the bounds are sorted before clamping). -/
theorem clampX_sorted_bounds (v : JVec ℚ) (a b : ℚ) :
    JVec.clampX v (.bnum (.num a)) (some (.bnum (.num b))) =
      JVec.clampX v (.bnum (.num b)) (some (.bnum (.num a))) ∧
    (JVec.clampX v (.bnum (.num a)) (some (.bnum (.num b)))).state.y = v.y ∧
    (∀ q : ℚ, v.x = .num q →
      JVec.clampX v (.bnum (.num a)) (some (.bnum (.num b))) =
        ⟨⟨.num (min (max q (min a b)) (max a b)), v.y⟩, none⟩ ∧
      min a b ≤ min (max q (min a b)) (max a b) ∧
      min (max q (min a b)) (max a b) ≤ max a b) := by
  obtain ⟨vx, vy⟩ := v
  refine ⟨?_, ?_, ?_⟩
  · cases vx <;>
      simp [JVec.clampX, Bound.xnum, JsNum.validateNumber, Bound.sameKind,
        getClampedValue, JsNum.jmin, JsNum.jmax, min_comm a b, max_comm a b]
  · cases vx <;>
      simp [JVec.clampX, Bound.xnum, JsNum.validateNumber, Bound.sameKind,
        getClampedValue, JsNum.jmin, JsNum.jmax]
  · intro q hq
    simp only at hq
    subst hq
    refine ⟨?_, le_min (le_max_right q (min a b)) min_le_max,
      min_le_right _ _⟩
    simp [JVec.clampX, Bound.xnum, JsNum.validateNumber, Bound.sameKind,
      getClampedValue, JsNum.jmin, JsNum.jmax]

/-- Witness for C3 at the receiver `(5, 7)` and bounds `1`, `3`. -/
theorem clampX_sorted_bounds_witness :
    JVec.clampX ⟨.num (5 : ℚ), .num 7⟩ (.bnum (.num 1)) (some (.bnum (.num 3))) =
      ⟨⟨.num (min (max (5 : ℚ) (min 1 3)) (max 1 3)), .num 7⟩, none⟩ :=
  ((clampX_sorted_bounds ⟨.num 5, .num 7⟩ 1 3).2.2 5 rfl).1

/-- C6 (amended): `mixX`, `mixY` and `mix` raise the range error exactly when
the factor compares `< 0` or `> 1` under JavaScript comparison, which is
false for `NaN`, so a `NaN` factor is accepted; when no error is raised and
all inputs are finite, each affected axis is set to
`(1 - factor) * self + factor * other`. -/
theorem mix_guard_and_formula (v w : JVec ℚ) (f : JsNum ℚ) :
    ((JVec.mixX v w f).thrown = some .rangeError ↔
      (f.lt (.num 0) = true ∨ (JsNum.num 1).lt f = true)) ∧
    ((JVec.mixY v w f).thrown = some .rangeError ↔
      (f.lt (.num 0) = true ∨ (JsNum.num 1).lt f = true)) ∧
    ((JVec.mix v w f).thrown = some .rangeError ↔
      (f.lt (.num 0) = true ∨ (JsNum.num 1).lt f = true)) ∧
    (∀ a b wa wb q : ℚ, ¬ q < 0 → ¬ 1 < q →
      JVec.mixX ⟨.num a, .num b⟩ ⟨.num wa, .num wb⟩ (.num q) =
        ⟨⟨.num ((1 - q) * a + q * wa), .num b⟩, none⟩ ∧
      JVec.mixY ⟨.num a, .num b⟩ ⟨.num wa, .num wb⟩ (.num q) =
        ⟨⟨.num a, .num ((1 - q) * b + q * wb)⟩, none⟩ ∧
      JVec.mix ⟨.num a, .num b⟩ ⟨.num wa, .num wb⟩ (.num q) =
        ⟨⟨.num ((1 - q) * a + q * wa), .num ((1 - q) * b + q * wb)⟩, none⟩) := by
  refine ⟨?_, ?_, ?_, ?_⟩
  · by_cases h : (f.lt (.num 0) || (JsNum.num 1).lt f) = true <;>
      simp_all [JVec.mixX]
  · by_cases h : (f.lt (.num 0) || (JsNum.num 1).lt f) = true <;>
      simp_all [JVec.mixY]
  · by_cases h : (f.lt (.num 0) || (JsNum.num 1).lt f) = true <;>
      simp_all [JVec.mix, JVec.mixX, JVec.mixY, MCall.andThen]
  · intro a b wa wb q hq0 hq1
    refine ⟨?_, ?_, ?_⟩ <;>
      simp [JVec.mix, JVec.mixX, JVec.mixY, MCall.andThen, JsNum.lt,
        JsNum.sub, JsNum.neg, JsNum.add, JsNum.mul, hq0, hq1,
        sub_eq_add_neg]

/-- Witness for C6 at the receiver `(1, 1)`, argument `(3, 5)` and factor
`1/2`. -/
theorem mix_guard_and_formula_witness :
    JVec.mix ⟨.num (1 : ℚ), .num 1⟩ ⟨.num 3, .num 5⟩ (.num (1/2)) =
      ⟨⟨.num ((1 - 1/2) * 1 + (1/2) * 3), .num ((1 - 1/2) * 1 + (1/2) * 5)⟩,
        none⟩ :=
  ((mix_guard_and_formula ⟨.num 1, .num 1⟩ ⟨.num 3, .num 5⟩
    (.num (1/2))).2.2.2 1 1 3 5 (1/2) (by norm_num) (by norm_num)).2.2

/-- Counterexample for C6 as stated: a `NaN` factor is outside `[0, 1]`, yet
neither `mixX` nor `mix` raises any error for it (the components become
`NaN` instead). -/
theorem mix_nan_counterexample :
    (JVec.mixX ⟨.num (1 : ℚ), .num 1⟩ ⟨.num 2, .num 2⟩ .nan).thrown = none ∧
    (JVec.mix ⟨.num (1 : ℚ), .num 1⟩ ⟨.num 2, .num 2⟩ .nan).thrown = none ∧
    (JVec.mixX ⟨.num (1 : ℚ), .num 1⟩ ⟨.num 2, .num 2⟩ .nan).state =
      ⟨.nan, .num 1⟩ := by
  decide

/-- C7: for every vector with finite components,
`Vector.fromObject(v.toObject())` succeeds and produces a vector that is
exactly component-equal to `v`. -/
theorem fromObject_toObject_roundtrip (v : JVec ℚ)
    (hx : v.x.isFinite = true) (hy : v.y.isFinite = true) :
    ∃ w : JVec ℚ, JVec.fromObject (JVec.toObject v) = .ok w ∧
      JVec.isEqualTo w v = true := by
  cases v with
  | mk x y =>
    cases x <;> cases y <;> simp_all [JVec.toObject, JVec.fromObject,
      JVec.make, JVec.isEqualTo, JsNum.isFinite, JsNum.seq]

/-- Witness for C7 at the vector `(10, 20)`. -/
theorem fromObject_toObject_roundtrip_witness :
    ∃ w : JVec ℚ, JVec.fromObject (JVec.toObject ⟨.num 10, .num 20⟩) = .ok w ∧
      JVec.isEqualTo w ⟨.num 10, .num 20⟩ = true :=
  fromObject_toObject_roundtrip ⟨.num 10, .num 20⟩ (by decide) (by decide)

/-- C9: the scalar arithmetic mutators perform no validation and store the
raw JavaScript arithmetic result for every scalar, `NaN` and the infinities
included, while the constructor accepts exactly the finite pairs; hence a
vector built from validated finite components can hold non-finite components
after a single scalar-mutator call. -/
theorem scalar_mutators_unvalidated :
    (∀ x y : JsNum ℚ, (∃ v, JVec.make x y = .ok v) ↔
      (x.isFinite = true ∧ y.isFinite = true)) ∧
    (∀ (v : JVec ℚ) (s : JsNum ℚ),
      JVec.addScalar v s = ⟨v.x.add s, v.y.add s⟩ ∧
      JVec.addScalarX v s = ⟨v.x.add s, v.y⟩ ∧
      JVec.addScalarY v s = ⟨v.x, v.y.add s⟩ ∧
      JVec.subtractScalar v s = ⟨v.x.sub s, v.y.sub s⟩ ∧
      JVec.subtractScalarX v s = ⟨v.x.sub s, v.y⟩ ∧
      JVec.subtractScalarY v s = ⟨v.x, v.y.sub s⟩ ∧
      JVec.multiplyScalar v s = ⟨v.x.mul s, v.y.mul s⟩ ∧
      JVec.multiplyScalarX v s = ⟨v.x.mul s, v.y⟩ ∧
      JVec.multiplyScalarY v s = ⟨v.x, v.y.mul s⟩) ∧
    (JVec.make (.num (1 : ℚ)) (.num 1) = .ok ⟨.num 1, .num 1⟩ ∧
      (JVec.addScalar ⟨.num (1 : ℚ), .num 1⟩ .nan).x.isFinite = false ∧
      (JVec.multiplyScalar ⟨.num (1 : ℚ), .num 1⟩ .posInf).y.isFinite =
        false) := by
  refine ⟨?_, ?_, ?_, ?_, ?_⟩
  · intro x y
    by_cases hx : x.isFinite = true <;> by_cases hy : y.isFinite = true <;>
      simp_all [JVec.make]
  · intro v s
    exact ⟨rfl, rfl, rfl, rfl, rfl, rfl, rfl, rfl, rfl⟩
  · simp [JVec.make, JsNum.isFinite]
  · rfl
  · norm_num [JVec.multiplyScalar, JsNum.mul, JsNum.isFinite]

/-- Witness for C9: the raw-result equations evaluated at `(2, 3)` and
scalar `4`. -/
theorem scalar_mutators_unvalidated_witness :
    JVec.addScalar ⟨.num (2 : ℚ), .num 3⟩ (.num 4) = ⟨.num 6, .num 7⟩ :=
  (scalar_mutators_unvalidated.2.1 ⟨.num 2, .num 3⟩ (.num 4)).1.trans
    (by norm_num [JsNum.add])

/-- C8: for every receiver `v` and every non-zero surface normal `n`,
`reflect(n)` returns normally with the receiver set to `v - 2·(v·n̂)·n̂`,
where `n̂` is the unit vector in the direction of `n`, and the components of
the normal argument itself are unchanged after the call (only a clone of it
is normalized). -/
theorem reflect_formula (v n : RVec) (h : ¬ n.isZero) :
    RVec.reflect v n =
      ((⟨v.x - 2 * (v.dot ⟨n.x / n.mag, n.y / n.mag⟩) * (n.x / n.mag),
         v.y - 2 * (v.dot ⟨n.x / n.mag, n.y / n.mag⟩) * (n.y / n.mag)⟩, n),
        none) := by
  have hm : n.mag ≠ 0 := ne_of_gt (RVec.mag_pos n h)
  obtain ⟨nx, ny⟩ := n
  obtain ⟨vx, vy⟩ := v
  simp only [RVec.reflect, RVec.clone, RVec.normalize, RVec.divideScalar,
    if_neg hm, RVec.subtract, RVec.multiplyScalar, RVec.dot]
  simp only [Prod.mk.injEq, RVec.mk.injEq, and_true, true_and,
    eq_self_iff_true]
  constructor <;> ring

/-- Witness for C8 at the receiver `(4, 6)` and normal `(0, 1)`. -/
theorem reflect_formula_witness :
    RVec.reflect ⟨4, 6⟩ ⟨0, 1⟩ =
      ((⟨4 - 2 * (RVec.dot ⟨4, 6⟩ ⟨0 / RVec.mag ⟨0, 1⟩, 1 / RVec.mag ⟨0, 1⟩⟩) *
          (0 / RVec.mag ⟨0, 1⟩),
         6 - 2 * (RVec.dot ⟨4, 6⟩ ⟨0 / RVec.mag ⟨0, 1⟩, 1 / RVec.mag ⟨0, 1⟩⟩) *
          (1 / RVec.mag ⟨0, 1⟩)⟩, ⟨0, 1⟩), none) :=
  reflect_formula ⟨4, 6⟩ ⟨0, 1⟩ (by norm_num [RVec.isZero])

/-- C4: `angleWith` returns `0` whenever either vector is zero; for non-zero
vectors it returns `acos` of the normalized dot product with the cosine
argument clamped into `[-1, 1]` before `acos`; and in every case the result
lies in `[0, π]` (a real number, never an invalid `NaN`). -/
theorem angleWith_range (v w : RVec) :
    (v.isZero ∨ w.isZero → v.angleWith w = 0) ∧
    0 ≤ v.angleWith w ∧ v.angleWith w ≤ Real.pi ∧
    (¬ (v.isZero ∨ w.isZero) →
      v.angleWith w =
        Real.arccos (max (-1) (min 1
          ((v.x * w.x + v.y * w.y) / (v.mag * w.mag))))) := by
  by_cases h : v.isZero ∨ w.isZero
  · refine ⟨fun _ => ?_, ?_, ?_, fun hc => absurd h hc⟩
    · simp [RVec.angleWith, h]
    · simp [RVec.angleWith, h]
    · simp [RVec.angleWith, h]
      exact Real.pi_nonneg
  · refine ⟨fun hc => absurd hc h, ?_, ?_, fun _ => ?_⟩
    · rw [RVec.angleWith, if_neg h]
      exact Real.arccos_nonneg _
    · rw [RVec.angleWith, if_neg h]
      exact Real.arccos_le_pi _
    · rw [RVec.angleWith, if_neg h]

/-- Witness for C4 at the vectors `(1, 0)` and `(-1, 0)`. -/
theorem angleWith_range_witness :
    RVec.angleWith ⟨1, 0⟩ ⟨-1, 0⟩ =
      Real.arccos (max (-1) (min 1
        (((1 : ℝ) * (-1) + 0 * 0) /
          (RVec.mag ⟨1, 0⟩ * RVec.mag ⟨-1, 0⟩)))) :=
  (angleWith_range ⟨1, 0⟩ ⟨-1, 0⟩).2.2.2 (by norm_num [RVec.isZero])

/-- C5: `rotateTowards(vec, maxAngle)` throws a range error exactly when
`maxAngle ≤ 0`; otherwise it rotates the receiver by
`min(angleWith(vec), maxAngle)` radians with the direction chosen by the
sign of `cross(vec)`, and afterwards the angle between the receiver and
`vec` equals `max(0, previous angle - maxAngle)` — the rotation never
overshoots alignment with `vec`. -/
theorem rotateTowards_spec (v w : RVec) (m : ℝ) :
    ((v.rotateTowards w m).2 = some .rangeError ↔ m ≤ 0) ∧
    (0 < m →
      (v.rotateTowards w m).1 =
        v.rotateBy (if v.cross w < 0 then -(min (v.angleWith w) m)
          else min (v.angleWith w) m) ∧
      (v.rotateTowards w m).1.angleWith w =
        max 0 (v.angleWith w - m)) := by
  constructor
  · by_cases h : m ≤ 0 <;> simp [RVec.rotateTowards, h]
  · intro hm
    have hnle : ¬ m ≤ 0 := not_le.mpr hm
    have hres : (v.rotateTowards w m).1 =
        v.rotateBy (if v.cross w < 0 then -(min (v.angleWith w) m)
          else min (v.angleWith w) m) := by
      simp [RVec.rotateTowards, hnle]
    refine ⟨hres, ?_⟩
    rw [hres]
    by_cases hz : v.isZero ∨ w.isZero
    · have hθ0 : v.angleWith w = 0 := by simp [RVec.angleWith, hz]
      have hcross : ¬ v.cross w < 0 := by
        rcases hz with h1 | h1 <;>
          · obtain ⟨ha, hb⟩ := h1
            simp [RVec.cross, ha, hb]
      have hδ0 : min (v.angleWith w) m = 0 := by
        rw [hθ0]
        exact min_eq_left hm.le
      have hrot : v.rotateBy 0 = v := by
        simp [RVec.rotateBy]
      rw [if_neg hcross, hδ0, hrot, hθ0, zero_sub,
        max_eq_left (neg_nonpos.mpr hm.le)]
    · push_neg at hz
      obtain ⟨hv, hw⟩ := hz
      have hz' : ¬ (v.isZero ∨ w.isZero) := by
        rintro (h1 | h1)
        · exact hv h1
        · exact hw h1
      set θ := v.angleWith w with hθdef
      set δ := min θ m with hδdef
      set d := (if v.cross w < 0 then -δ else δ) with hddef
      have hmv := RVec.mag_pos v hv
      have hmw := RVec.mag_pos w hw
      have hM : (0 : ℝ) < v.mag * w.mag := mul_pos hmv hmw
      set c := v.dot w / (v.mag * w.mag) with hcdef
      set s := v.cross w / (v.mag * w.mag) with hsdef
      have hcs : c ^ 2 + s ^ 2 = 1 := RVec.normCos_sq_add_normSin_sq v w hv hw
      have hc1 : c ≤ 1 := by nlinarith [sq_nonneg s, sq_nonneg (c - 1), sq_nonneg (c + 1)]
      have hc2 : -1 ≤ c := by nlinarith [sq_nonneg s, sq_nonneg (c - 1), sq_nonneg (c + 1)]
      have hclamp : max (-1) (min 1 c) = c := by
        rw [min_eq_right hc1, max_eq_right hc2]
      have hθeq : θ = Real.arccos c := by
        rw [hθdef, RVec.angleWith_of_not_zero v w hz', ← hcdef, hclamp]
      have hθ0 : 0 ≤ θ := by
        rw [hθeq]
        exact Real.arccos_nonneg c
      have hθpi : θ ≤ Real.pi := by
        rw [hθeq]
        exact Real.arccos_le_pi c
      have hcosθ : Real.cos θ = c := by
        rw [hθeq]
        exact Real.cos_arccos hc2 hc1
      have hsinθ : Real.sin θ = |s| := by
        rw [hθeq, Real.sin_arccos]
        have h12 : 1 - c ^ 2 = s ^ 2 := by linarith
        rw [h12, Real.sqrt_sq_eq_abs]
      have hδθ : δ ≤ θ := min_le_left θ m
      have hδ0 : 0 ≤ δ := le_min hθ0 hm.le
      have hrotz : ¬ ((v.rotateBy d).isZero ∨ w.isZero) := by
        rintro (h1 | h1)
        · exact RVec.not_isZero_rotateBy v d hv h1
        · exact hw h1
      have hsplit : (v.rotateBy d).dot w / ((v.rotateBy d).mag * w.mag)
          = Real.cos d * c + Real.sin d * s := by
        rw [RVec.dot_rotateBy v w d, RVec.mag_rotateBy v d, hcdef, hsdef,
          add_div, mul_div_assoc, mul_div_assoc]
      have hcase : Real.cos d * c + Real.sin d * s = Real.cos (θ - δ) := by
        by_cases hcr : v.cross w < 0
        · have hd' : d = -δ := by rw [hddef, if_pos hcr]
          have hsle : s ≤ 0 := by
            rw [hsdef]
            exact div_nonpos_of_nonpos_of_nonneg hcr.le hM.le
          have hs' : s = - Real.sin θ := by
            rw [hsinθ, abs_of_nonpos hsle, neg_neg]
          rw [hd', hs', Real.cos_neg, Real.sin_neg, ← hcosθ, Real.cos_sub]
          ring
        · have hd' : d = δ := by rw [hddef, if_neg hcr]
          have hsge : 0 ≤ s := by
            rw [hsdef]
            exact div_nonneg (not_lt.mp hcr) hM.le
          have hs' : s = Real.sin θ := by
            rw [hsinθ, abs_of_nonneg hsge]
          rw [hd', hs', ← hcosθ, Real.cos_sub]
          ring
      have hgoal1 : (v.rotateBy d).angleWith w = θ - δ := by
        rw [RVec.angleWith_of_not_zero _ _ hrotz, hsplit, hcase]
        have hcl : max (-1) (min 1 (Real.cos (θ - δ))) = Real.cos (θ - δ) := by
          rw [min_eq_right (Real.cos_le_one _),
            max_eq_right (Real.neg_one_le_cos _)]
        rw [hcl]
        exact Real.arccos_cos (by linarith) (by linarith)
      rw [hgoal1]
      rcases le_total θ m with h2 | h2
      · rw [hδdef, min_eq_left h2, sub_self]
        exact (max_eq_left (by linarith)).symm
      · rw [hδdef, min_eq_right h2]
        exact (max_eq_right (by linarith)).symm

/-- Witness for C5 at the receiver `(10, 0)`, target `(0, 10)` and max
angle `π`. -/
theorem rotateTowards_spec_witness :
    (RVec.rotateTowards ⟨10, 0⟩ ⟨0, 10⟩ Real.pi).1.angleWith ⟨0, 10⟩ =
      max 0 (RVec.angleWith ⟨10, 0⟩ ⟨0, 10⟩ - Real.pi) :=
  ((rotateTowards_spec ⟨10, 0⟩ ⟨0, 10⟩ Real.pi).2 Real.pi_pos).2
